import Mathlib

/-!
Shallow embedding of the beach-accommodation-finder pipeline
(`src/input_processing.py`, `src/backend_execution.py`).

Conventions of the embedding:
* Python floats are modelled as rationals (`ℚ`); `round(x, 2)` is modelled
  by `round2` below (round to the nearest hundredth).
* Python dicts with a fixed key set become structures; optional keys become
  `Option` fields.
* Network effects are modelled by passing the outcome each endpoint would
  produce as an explicit input value.
* The function `haversine_distance` (floating-point trigonometry in
  `src/utils.py`) is modelled as an abstract distance-function parameter
  `hdist`.
* Python string methods are modelled by kernel-reducible char-list
  helpers (`pyLower`, `pyStrip`, `pySplit`, `replaceCommas`).
-/

namespace BeachFinder

/-- Normalized filters, the return shape of `normalize_filters`. -/
structure Filters where
  budget : String
  type : String
  tags : List String
deriving DecidableEq, Repr, Inhabited

/-- Geocoding result shape produced by `validate_and_geocode`. -/
structure GeoData where
  name : String
  lat : ℚ
  lon : ℚ
  type : String
  importance : ℚ
deriving DecidableEq, Repr, Inhabited

/-- The SearchRequest dict built by `build_search_request`. -/
structure SearchRequest where
  location_name : String
  lat : ℚ
  lon : ℚ
  budget : String
  type : String
  tags : List String
  radius : ℚ
  max_results : Nat
deriving DecidableEq, Repr, Inhabited

/-- Python `str.lower`, modelled characterwise with `Char.toLower`
(ASCII case folding; agrees with Python on the inputs considered). -/
def pyLower (s : String) : String := ⟨s.data.map Char.toLower⟩

/-- Python `str.strip`: drop leading and trailing whitespace. -/
def pyStrip (s : String) : String :=
  ⟨((s.data.dropWhile Char.isWhitespace).reverse.dropWhile Char.isWhitespace).reverse⟩

/-- Python `str.replace(',', ' ')`, the single-character case. -/
def replaceCommas (s : String) : String :=
  ⟨s.data.map fun c => if c = ',' then ' ' else c⟩

/-- Helper for `pySplit`: accumulate the current word (reversed) and cut at
whitespace. -/
def pySplitAux : List Char → List Char → List String
  | [], acc => if acc.isEmpty then [] else [⟨acc.reverse⟩]
  | c :: cs, acc =>
    if c.isWhitespace then
      if acc.isEmpty then pySplitAux cs [] else (⟨acc.reverse⟩ : String) :: pySplitAux cs []
    else pySplitAux cs (c :: acc)

/-- Python `str.split()` with no argument: split on whitespace runs,
dropping empty tokens. -/
def pySplit (s : String) : List String := pySplitAux s.data []

/-- Python `dict.get` over a literal dictionary, as association-list lookup. -/
def lookupMap (m : List (String × String)) (key : String) : Option String :=
  (m.find? fun p => p.1 == key).map (·.2)

/-- The `budget_map` dictionary of `normalize_filters`. -/
def budget_map : List (String × String) :=
  [("rẻ", "low"), ("giá rẻ", "low"), ("cheap", "low"),
   ("bình thường", "medium"), ("trung bình", "medium"), ("normal", "medium"),
   ("cao", "high"), ("đắt", "high"), ("sang trọng", "high"), ("luxury", "high")]

/-- The `type_map` dictionary of `normalize_filters`. -/
def type_map : List (String × String) :=
  [("homestay", "guest_house"), ("nhà nghỉ", "guest_house"),
   ("khách sạn", "hotel"), ("hotel", "hotel"), ("resort", "resort"),
   ("villa", "chalet"), ("biệt thự", "chalet"),
   ("hostel", "hostel"), ("ký túc xá", "hostel")]

/-- The `ambiance_map` dictionary of `normalize_filters`. -/
def ambiance_map : List (String × String) :=
  [("yên tĩnh", "quiet"), ("quiet", "quiet"), ("peaceful", "quiet"),
   ("sôi động", "lively"), ("lively", "lively"), ("vibrant", "lively"),
   ("gần biển", "beachfront"), ("beach", "beachfront"), ("beachfront", "beachfront"),
   ("view đẹp", "scenic"), ("scenic", "scenic"),
   ("gia đình", "family"), ("family", "family"),
   ("romantic", "romantic"), ("lãng mạn", "romantic")]

/-- Embedding of `normalize_filters` (`input_processing.py:153`): budget and type are
looked up after `lower().strip()` with silent defaults; ambiance text is
split on commas and whitespace and each token looked up individually. -/
def normalize_filters (budget_text type_text ambiance_text : String) : Filters :=
  let budget_tier := (lookupMap budget_map (pyStrip (pyLower budget_text))).getD "medium"
  let acc_type := (lookupMap type_map (pyStrip (pyLower type_text))).getD "guest_house"
  let tags :=
    if pyStrip ambiance_text = "" then []
    else
      let words := (pySplit (replaceCommas ambiance_text)).map pyStrip
      words.foldl (fun acc word =>
        match lookupMap ambiance_map (pyLower word) with
        | some tag => if acc.contains tag then acc else acc ++ [tag]
        | none => acc) []
  { budget := budget_tier, type := acc_type, tags := tags }

/-- Embedding of `build_search_request` (`input_processing.py:238`). -/
def build_search_request (geo_data : GeoData) (filters : Filters) : SearchRequest :=
  { location_name := geo_data.name
    lat := geo_data.lat
    lon := geo_data.lon
    budget := filters.budget
    type := filters.type
    tags := filters.tags
    radius := 5000
    max_results := 10 }

/-- The `tags` sub-dict of a raw OSM element: only the keys read by
`normalize_osm_data` are modelled, each optional. -/
structure OSMTags where
  name : Option String
  addrStreet : Option String
  tourism : Option String
  amenity : Option String
  building : Option String
deriving DecidableEq, Repr, Inhabited

/-- A raw element as returned by the Overpass mirrors or reshaped by the
Nominatim fallback: `tags`, `lat`, `lon` and `id` are optional keys. -/
structure OSMElement where
  id : Option Nat
  type : String
  lat : Option ℚ
  lon : Option ℚ
  tags : Option OSMTags
deriving DecidableEq, Repr, Inhabited

/-- The Accommodation dict built by `normalize_osm_data`.  The `rank` key is
absent (`none`) until `rank_results` adds it. -/
structure Accommodation where
  id : Nat
  name : String
  location : ℚ × ℚ
  type : String
  tags : List String
  score : ℚ
  distance : ℚ
  source : String
  rank : Option Nat := none
deriving DecidableEq, Repr, Inhabited

/-- One mirror endpoint's outcome, matching the branches of the per-server
loop in `search_accommodations` (`backend_execution.py:55`). -/
inductive MirrorOutcome where
  | success (elements : List OSMElement)
  | overloaded (code : Nat)
  | httpError (code : Nat)
  | timeout
  | requestError (msg : String)
  | otherError (msg : String)
deriving DecidableEq, Repr

/-- The `last_error` string recorded for a mirror that did not yield
records (`backend_execution.py:74`, `79`, `84`, `88`, `92`, `96`). -/
def mirrorFailReason (host : String) : MirrorOutcome → String
  | .success _ => s!"Server {host} không trả về kết quả"
  | .overloaded c => s!"Server {host} quá tải (HTTP {c})"
  | .httpError c => s!"Server {host} trả về lỗi HTTP {c}"
  | .timeout => s!"Server {host} timeout"
  | .requestError m => s!"Lỗi kết nối {host}: {m}"
  | .otherError m => s!"Lỗi không xác định: {m}"

/-- A mirror outcome counts as a hit when it is HTTP 200 with a non-empty
element list; every other outcome makes the loop record a reason and
continue. -/
def isHit : MirrorOutcome → Bool
  | .success es => !es.isEmpty
  | _ => false

/-- Python `f-string` rendering of the `last_error` variable (`None` when no
endpoint was attempted). -/
def optStr : Option String → String
  | some s => s
  | none => "None"

/-- The mirror loop of `search_accommodations` with its `last_error`
accumulator made explicit. -/
def attemptMirrors : List (String × MirrorOutcome) → Option String →
    Option (List OSMElement) × Option String
  | [], lastErr =>
    (none, some ("Không thể kết nối Overpass API. Lỗi cuối: " ++ optStr lastErr))
  | (host, o) :: rest, _ =>
    match o with
    | .success es =>
      if 0 < es.length then (some es, none)
      else attemptMirrors rest (some (mirrorFailReason host (.success es)))
    | o => attemptMirrors rest (some (mirrorFailReason host o))

/-- Embedding of `search_accommodations` (`backend_execution.py:16`): try the mirror
endpoints in order; the outcome each mirror would produce is passed in as
data, paired with the mirror's host name. -/
def search_accommodations (mirrors : List (String × MirrorOutcome)) :
    Option (List OSMElement) × Option String :=
  attemptMirrors mirrors none

/-- One raw result of the Nominatim fallback query; `lat`, `lon`,
`place_id` and `display_name` are optional keys. -/
structure NomItem where
  place_id : Option Nat
  lat : Option ℚ
  lon : Option ℚ
  display_name : Option String
deriving DecidableEq, Repr, Inhabited

/-- Outcome of the single Nominatim fallback request. -/
inductive NomOutcome where
  | ok (data : List NomItem)
  | httpError (code : Nat)
  | exc (msg : String)
deriving DecidableEq, Repr

/-- The reshaping loop of `search_accommodations_nominatim_fallback`
(`backend_execution.py:148`): keep items having both coordinates and
convert them to the Overpass raw-record shape. -/
def nominatim_reshape (data : List NomItem) : List OSMElement :=
  data.filterMap fun item =>
    match item.lat, item.lon with
    | some la, some lo =>
      some { id := some (item.place_id.getD 0), type := "node",
             lat := some la, lon := some lo,
             tags := some { name := some (item.display_name.getD "Unnamed"),
                            addrStreet := none, tourism := some "hotel",
                            amenity := none, building := none } }
    | _, _ => none

/-- Embedding of `search_accommodations_nominatim_fallback` (`backend_execution.py:107`). -/
def search_accommodations_nominatim_fallback :
    NomOutcome → Option (List OSMElement) × Option String
  | .httpError c => (none, some s!"Nominatim fallback thất bại: HTTP {c}")
  | .ok data =>
    if data.isEmpty then (none, some "Không tìm thấy kết quả")
    else (some (nominatim_reshape data), none)
  | .exc m => (none, some s!"Lỗi Nominatim fallback: {m}")

/-- Name extraction of the normalizer:
`tags.get('name', tags.get('addr:street', 'Unnamed'))`. -/
def osmName (t : OSMTags) : String :=
  match t.name with
  | some n => n
  | none => t.addrStreet.getD "Unnamed"

/-- Conversion of one raw element (with tag payload and both coordinates)
into an Accommodation (`backend_execution.py:206`-`231`). -/
def toAccommodation (e : OSMElement) (t : OSMTags) (la lo : ℚ) : Accommodation :=
  let tourism_type := t.tourism.getD "accommodation"
  { id := e.id.getD 0
    name := osmName t
    location := (la, lo)
    type := tourism_type
    tags := [tourism_type]
      ++ (match t.amenity with | some a => [a] | none => [])
      ++ (match t.building with | some b => [b] | none => [])
    score := 0
    distance := 0
    source := "osm"
    rank := none }

/-- The loop of `normalize_osm_data` with the `seen_names` set made
explicit (membership-only use, so a list suffices). -/
def normalizeLoop : List OSMElement → List String → List Accommodation
  | [], _ => []
  | e :: rest, seen =>
    match e.tags with
    | none => normalizeLoop rest seen
    | some t =>
      if seen.contains (osmName t) then normalizeLoop rest seen
      else
        match e.lat, e.lon with
        | some la, some lo =>
          toAccommodation e t la lo :: normalizeLoop rest (osmName t :: seen)
        | _, _ => normalizeLoop rest seen

/-- Embedding of `normalize_osm_data` (`backend_execution.py:173`). -/
def normalize_osm_data (osm_elements : List OSMElement) : List Accommodation :=
  normalizeLoop osm_elements []

/-- Embedding of `filter_results` (`backend_execution.py:243`).  The floating-point
`haversine_distance` of `utils.py` is abstracted as the parameter `hdist`
(arguments: center lat, center lon, point lat, point lon; result in km). -/
def filter_results (hdist : ℚ → ℚ → ℚ → ℚ → ℚ) :
    List Accommodation → SearchRequest → List Accommodation
  | [], _ => []
  | acc :: rest, req =>
    let d := hdist req.lat req.lon acc.location.1 acc.location.2
    if req.radius / 1000 < d then filter_results hdist rest req
    else if !req.tags.isEmpty && !(req.tags.any fun tag => acc.tags.contains tag) then
      filter_results hdist rest req
    else { acc with distance := d } :: filter_results hdist rest req

/-- Python `round(x, 2)`: round to the nearest hundredth (Python uses
bankers' rounding on binary floats; no claim here exercises a half-way
case, so `round` on `ℚ` is an adequate model). -/
def round2 (q : ℚ) : ℚ := (round (q * 100) : ℤ) / 100

/-- The raw composite score of `rank_results` before rounding
(`backend_execution.py:305`-`326`).  The tag-match count is the size of the
set intersection `set(acc.tags) & set(req.tags)`, i.e. the number of
distinct entity tags also present in the requested tags. -/
def computeScore (req : SearchRequest) (acc : Accommodation) : ℚ :=
  let proximity_score : ℚ := max 0 (5 - acc.distance)
  let tag_matches : ℚ := ((acc.tags.dedup.filter fun t => req.tags.contains t).length : ℚ)
  let type_bonus : ℚ := if acc.type = req.type then 3 else 0
  let name_bonus : ℚ := if acc.name ≠ "Unnamed" then 1 else 0
  10 + proximity_score + tag_matches * 2 + type_bonus + name_bonus

/-- The value stored into `acc['score']`: the composite score rounded to
two decimals. -/
def scoreOf (req : SearchRequest) (acc : Accommodation) : ℚ :=
  round2 (computeScore req acc)

/-- The input list after the scoring pass of `rank_results` set every
`score` field. -/
def scoredList (accs : List Accommodation) (req : SearchRequest) : List Accommodation :=
  accs.map fun a => { a with score := scoreOf req a }

/-- Score of the element at a given original position (after scoring). -/
def scrFn (accs : List Accommodation) (req : SearchRequest) (i : ℕ) : ℚ :=
  ((scoredList accs req).getD i default).score

/-- The original positions reordered as Python's stable
`sorted(..., key=score, reverse=True)` reorders the objects: insertion
sort of the positions, a position moving ahead only when its score is
strictly larger. -/
def sortedIndices (accs : List Accommodation) (req : SearchRequest) : List ℕ :=
  List.insertionSort (fun i j => scrFn accs req j ≤ scrFn accs req i)
    (List.range accs.length)

/-- Original positions of the five objects of `sorted_accs[:5]`. -/
def topIndices (accs : List Accommodation) (req : SearchRequest) : List ℕ :=
  (sortedIndices accs req).take 5

/-- Effect of the rank-assignment loop on the object at original position
`i`: the objects of `top_results` are the list entries at the positions in
`top`, and the one at position `i` receives `rank = (its index in
top_results) + 1`. -/
def adjustRank (top : List ℕ) (i : ℕ) (a : Accommodation) : Accommodation :=
  match top.findIdx? fun j => j = i with
  | some k => { a with rank := some (k + 1) }
  | none => a

/-- Apply `adjustRank` positionwise, `k` being the position of the list
head. -/
def applyRanks (top : List ℕ) : ℕ → List Accommodation → List Accommodation
  | _, [] => []
  | k, a :: as => adjustRank top k a :: applyRanks top (k + 1) as

/-- Embedding of `rank_results` (`backend_execution.py:289`).  The Python function
mutates the scored objects in place and returns the top five as aliases;
the embedding returns the pair (final state of the input list, returned
list). -/
def rank_results (accs : List Accommodation) (req : SearchRequest) :
    List Accommodation × List Accommodation :=
  match accs with
  | [] => ([], [])
  | _ :: _ =>
    let mutated := applyRanks (topIndices accs req) 0 (scoredList accs req)
    (mutated, (topIndices accs req).map fun i => mutated.getD i default)

/-! Helper lemmas about the mirror loop. -/

/-- A mirror that is not a hit makes the loop record its reason and move on. -/
theorem attemptMirrors_skip (host : String) (o : MirrorOutcome)
    (rest : List (String × MirrorOutcome)) (le : Option String)
    (h : isHit o = false) :
    attemptMirrors ((host, o) :: rest) le =
      attemptMirrors rest (some (mirrorFailReason host o)) := by
  cases o with
  | success es =>
    simp only [isHit, Bool.not_eq_false'] at h
    have hlen : es.length = 0 := by simpa [List.isEmpty_iff_length_eq_zero] using h
    simp [attemptMirrors, hlen]
  | overloaded c => rfl
  | httpError c => rfl
  | timeout => rfl
  | requestError m => rfl
  | otherError m => rfl

/-- A mirror returning HTTP 200 with a non-empty element list terminates the
loop successfully with exactly those elements. -/
theorem attemptMirrors_hit (host : String) (es : List OSMElement)
    (rest : List (String × MirrorOutcome)) (le : Option String) (h : es ≠ []) :
    attemptMirrors ((host, .success es) :: rest) le = (some es, none) := by
  simp [attemptMirrors, List.length_pos.mpr h]

/-- Last element of `p :: ms`, written as a structurally recursive function
to keep proofs free of dependent proof arguments. -/
def lastOf (p : String × MirrorOutcome) : List (String × MirrorOutcome) →
    String × MirrorOutcome
  | [] => p
  | q :: t => lastOf q t

/-- Agreement of `lastOf` with `List.getLast`. -/
theorem lastOf_eq_getLast :
    ∀ (ms : List (String × MirrorOutcome)) (p : String × MirrorOutcome)
      (h : p :: ms ≠ []), lastOf p ms = (p :: ms).getLast h
  | [], _, _ => rfl
  | q :: t, p, _ => lastOf_eq_getLast t q (by simp)

/-- When no mirror is a hit, the loop exhausts the nonempty list `p :: ms`
and reports failure with the reason of the last mirror. -/
theorem attemptMirrors_allFail :
    ∀ (ms : List (String × MirrorOutcome)) (p : String × MirrorOutcome)
      (le : Option String),
    (∀ q ∈ p :: ms, isHit q.2 = false) →
    attemptMirrors (p :: ms) le =
      (none, some ("Không thể kết nối Overpass API. Lỗi cuối: " ++
        mirrorFailReason (lastOf p ms).1 (lastOf p ms).2))
  | [], (host, o), le, hfail => by
    rw [attemptMirrors_skip host o [] le (hfail (host, o) (by simp))]
    rfl
  | q :: t, (host, o), le, hfail => by
    rw [attemptMirrors_skip host o (q :: t) le (hfail (host, o) (by simp))]
    exact attemptMirrors_allFail t q _
      (fun r hr => hfail r (List.mem_cons_of_mem _ hr))

/-- C1: per the spec, `normalize_filters("rẻ","villa","yên tĩnh, gần biển, xyz")`
should yield tags `["quiet","beachfront"]`.  The code instead yields `[]`:
the tokenizer splits the ambiance text on whitespace as well as commas, so
the multi-word vocabulary keys `"yên tĩnh"` and `"gần biển"` — present in
`ambiance_map`, witnessing the intended behaviour — can never be produced as
lookup tokens.  This theorem evaluates the code at the failing input and
shows the intended vocabulary entries exist. -/
theorem normalize_filters_drops_multiword_ambiance :
    normalize_filters "rẻ" "villa" "yên tĩnh, gần biển, xyz" =
      { budget := "low", type := "chalet", tags := [] } ∧
    lookupMap ambiance_map "yên tĩnh" = some "quiet" ∧
    lookupMap ambiance_map "gần biển" = some "beachfront" := by
  refine ⟨by decide, by decide, by decide⟩

/-- C3: whenever the mirrors before some endpoint all fail to produce a
record and that endpoint responds with HTTP 200 and a non-empty element
list, `search_accommodations` returns exactly that endpoint's elements and
its result does not depend on the mirrors after it (they are never
queried). -/
theorem search_accommodations_first_hit_wins
    (pre post : List (String × MirrorOutcome)) (host : String)
    (es : List OSMElement) (hne : es ≠ [])
    (hpre : ∀ p ∈ pre, isHit p.2 = false) :
    search_accommodations (pre ++ (host, .success es) :: post) = (some es, none) := by
  suffices h : ∀ le, attemptMirrors (pre ++ (host, .success es) :: post) le =
      (some es, none) from h none
  induction pre with
  | nil => exact fun le => attemptMirrors_hit host es post le hne
  | cons p pre ih =>
    intro le
    obtain ⟨h0, o0⟩ := p
    rw [List.cons_append, attemptMirrors_skip h0 o0 _ le (hpre (h0, o0) (by simp))]
    exact ih (fun q hq => hpre q (List.mem_cons_of_mem _ hq)) _

/-- Witness for C3, on the spec's own scenario: first mirror empty, second
overloaded, third returns two records — the third mirror's records are
returned unmodified even though a fourth mirror exists. -/
theorem search_accommodations_first_hit_wins_witness :
    search_accommodations
      [("overpass-api.de", .success []),
       ("overpass.kumi.systems", .overloaded 429),
       ("overpass.openstreetmap.ru", .success
          [{ id := some 1, type := "node", lat := some 10, lon := some 106, tags := none },
           { id := some 2, type := "node", lat := some 11, lon := some 107, tags := none }]),
       ("never-tried.example", .timeout)] =
      (some [{ id := some 1, type := "node", lat := some 10, lon := some 106, tags := none },
             { id := some 2, type := "node", lat := some 11, lon := some 107, tags := none }],
       none) :=
  search_accommodations_first_hit_wins
    [("overpass-api.de", .success []), ("overpass.kumi.systems", .overloaded 429)]
    [("never-tried.example", .timeout)] "overpass.openstreetmap.ru" _
    (by decide) (by decide)

/-- C6: when every mirror fails to produce a record, `search_accommodations`
returns no records and a failure message equal to a fixed prefix followed by
the reason recorded for the last mirror attempted — the message is a
function of the last mirror's outcome alone, so the earlier mirrors'
reasons are overwritten and discarded. -/
theorem search_accommodations_last_error_surfaced
    (mirrors : List (String × MirrorOutcome)) (hne : mirrors ≠ [])
    (hfail : ∀ p ∈ mirrors, isHit p.2 = false) :
    search_accommodations mirrors =
      (none, some ("Không thể kết nối Overpass API. Lỗi cuối: " ++
        mirrorFailReason (mirrors.getLast hne).1 (mirrors.getLast hne).2)) := by
  match mirrors, hne with
  | p :: ms, hne =>
    rw [← lastOf_eq_getLast ms p hne]
    exact attemptMirrors_allFail ms p none hfail

/-- Witness for C6: three mirrors fail for different causes; the surfaced
message carries exactly the third mirror's cause. -/
theorem search_accommodations_last_error_surfaced_witness :
    search_accommodations
      [("overpass-api.de", .success []),
       ("overpass.kumi.systems", .overloaded 504),
       ("overpass.openstreetmap.ru", .timeout)] =
      (none, some "Không thể kết nối Overpass API. Lỗi cuối: Server overpass.openstreetmap.ru timeout") := by
  have h := search_accommodations_last_error_surfaced
    [("overpass-api.de", .success []),
     ("overpass.kumi.systems", .overloaded 504),
     ("overpass.openstreetmap.ru", .timeout)] (by decide) (by decide)
  simpa using h

/-- C7 counterexample: a fallback result carrying a latitude but no
longitude does not lack both coordinates, yet the code discards it (the
keep-condition is `'lat' in item and 'lon' in item`), so "exactly those
results lacking both coordinates are discarded" is false. -/
theorem fallback_discards_half_coord :
    (search_accommodations_nominatim_fallback
      (.ok [{ place_id := some 7, lat := some 1, lon := none,
              display_name := some "X" }])).1 = some [] ∧
    ({ place_id := some 7, lat := some 1, lon := none,
       display_name := some "X" } : NomItem).lat.isSome = true := by
  exact ⟨rfl, rfl⟩

/-- C7 (amended): on a successful non-empty response list the fallback
returns success, discarding exactly those results that do not carry both
coordinates, and reshaping each survivor into the primary path's raw-record
shape with category tag fixed to `"hotel"` and name taken from the display
string, defaulting to `"Unnamed"`. -/
theorem fallback_reshape_spec (data : List NomItem) (h : data ≠ []) :
    search_accommodations_nominatim_fallback (.ok data) =
      (some (data.filterMap fun item =>
        if item.lat.isSome && item.lon.isSome then
          some { id := some (item.place_id.getD 0), type := "node",
                 lat := item.lat, lon := item.lon,
                 tags := some { name := some (item.display_name.getD "Unnamed"),
                                addrStreet := none, tourism := some "hotel",
                                amenity := none, building := none } }
        else none), none) := by
  have hne : data.isEmpty = false := by simpa [List.isEmpty_iff] using h
  simp only [search_accommodations_nominatim_fallback, hne, Bool.false_eq_true,
    if_false, nominatim_reshape, Prod.mk.injEq, and_true, Option.some.injEq]
  refine List.filterMap_congr fun item _ => ?_
  cases hla : item.lat <;> cases hlo : item.lon <;> simp [hla, hlo]

/-- Witness for C7's amended theorem: one full item, one item missing the
longitude. -/
theorem fallback_reshape_spec_witness :
    search_accommodations_nominatim_fallback
      (.ok [{ place_id := some 7, lat := some 1, lon := some 2,
              display_name := none },
            { place_id := none, lat := some 1, lon := none,
              display_name := some "X" }]) =
      (some [{ id := some 7, type := "node", lat := some 1, lon := some 2,
               tags := some { name := some "Unnamed", addrStreet := none,
                              tourism := some "hotel", amenity := none,
                              building := none } }], none) := by
  have h := fallback_reshape_spec
    [{ place_id := some 7, lat := some 1, lon := some 2, display_name := none },
     { place_id := none, lat := some 1, lon := none, display_name := some "X" }]
    (by decide)
  simpa using h

/-- C4: `filter_results` keeps an accommodation exactly when its distance
to the request coordinate is at most `radius / 1000` (inclusive boundary)
and either the request carries no tag requirements or at least one
requested tag occurs in the entity's tag list; a kept entity is emitted
with its `distance` field set to the computed distance. -/
theorem filter_results_characterization (hdist : ℚ → ℚ → ℚ → ℚ → ℚ)
    (accs : List Accommodation) (req : SearchRequest) (a : Accommodation) :
    a ∈ filter_results hdist accs req ↔
      ∃ acc ∈ accs,
        hdist req.lat req.lon acc.location.1 acc.location.2 ≤ req.radius / 1000 ∧
        (req.tags = [] ∨ ∃ t ∈ req.tags, t ∈ acc.tags) ∧
        a = { acc with
              distance := hdist req.lat req.lon acc.location.1 acc.location.2 } := by
  induction accs with
  | nil => simp [filter_results]
  | cons acc rest ih =>
    by_cases hd : req.radius / 1000 <
        hdist req.lat req.lon acc.location.1 acc.location.2
    · have hstep : filter_results hdist (acc :: rest) req =
          filter_results hdist rest req := by
        simp [filter_results, hd]
      rw [hstep, ih]
      constructor
      · rintro ⟨b, hb, h1, h2, h3⟩
        exact ⟨b, List.mem_cons_of_mem _ hb, h1, h2, h3⟩
      · rintro ⟨b, hb, h1, h2, h3⟩
        rcases List.mem_cons.mp hb with hb | hb
        · exact absurd (hb ▸ h1) (not_le.mpr hd)
        · exact ⟨b, hb, h1, h2, h3⟩
    · push_neg at hd
      by_cases htag : req.tags = [] ∨ ∃ t ∈ req.tags, t ∈ acc.tags
      · have hcfalse : ¬((!req.tags.isEmpty &&
            !(req.tags.any fun tag => acc.tags.contains tag)) = true) := by
          rcases htag with h0 | ⟨t, ht, hta⟩
          · simp [h0]
          · simp
            exact fun _ => ⟨t, ht, hta⟩
        have hstep : filter_results hdist (acc :: rest) req =
            ({ acc with distance := hdist req.lat req.lon acc.location.1 acc.location.2 } : Accommodation) :: filter_results hdist rest req := by
          simp only [filter_results]
          rw [if_neg (not_lt.mpr hd), if_neg hcfalse]
        rw [hstep]
        simp only [List.mem_cons, ih]
        constructor
        · rintro (rfl | ⟨b, hb, h1, h2, h3⟩)
          · exact ⟨acc, Or.inl rfl, hd, htag, rfl⟩
          · exact ⟨b, Or.inr hb, h1, h2, h3⟩
        · rintro ⟨b, rfl | hb, h1, h2, h3⟩
          · exact Or.inl h3
          · exact Or.inr ⟨b, hb, h1, h2, h3⟩
      · push_neg at htag
        obtain ⟨h0, h1⟩ := htag
        have hctrue : (!req.tags.isEmpty &&
            !(req.tags.any fun tag => acc.tags.contains tag)) = true := by
          have hi : req.tags.isEmpty = false := by
            simpa [List.isEmpty_iff] using h0
          simp [hi]
          exact fun x hx => h1 x hx
        have hstep : filter_results hdist (acc :: rest) req =
            filter_results hdist rest req := by
          simp only [filter_results]
          rw [if_neg (not_lt.mpr hd), if_pos hctrue]
        rw [hstep, ih]
        constructor
        · rintro ⟨b, hb, h1x, h2, h3⟩
          exact ⟨b, List.mem_cons_of_mem _ hb, h1x, h2, h3⟩
        · rintro ⟨b, hb, h1x, h2, h3⟩
          rcases List.mem_cons.mp hb with rfl | hb
          · rcases h2 with h2 | ⟨t, ht, hta⟩
            · exact absurd h2 h0
            · exact absurd hta (h1 t ht)
          · exact ⟨b, hb, h1x, h2, h3⟩

/-- Witness for C4, exercising the inclusive boundary: with a constant
distance function returning exactly `radius / 1000 = 5` km and an entity
sharing one of the two required tags, the entity is retained. -/
theorem filter_results_characterization_witness :
    ({ id := 1, name := "A", location := (3, 4), type := "hotel",
       tags := ["hotel", "quiet"], score := 0, distance := 5,
       source := "osm", rank := none } : Accommodation) ∈
      filter_results (fun _ _ _ _ => 5)
        [{ id := 1, name := "A", location := (3, 4), type := "hotel",
           tags := ["hotel", "quiet"], score := 0, distance := 0,
           source := "osm", rank := none }]
        { location_name := "X", lat := 0, lon := 0, budget := "low",
          type := "hotel", tags := ["quiet", "beachfront"], radius := 5000,
          max_results := 10 } :=
  (filter_results_characterization (fun _ _ _ _ => 5) _ _ _).mpr
    ⟨{ id := 1, name := "A", location := (3, 4), type := "hotel",
       tags := ["hotel", "quiet"], score := 0, distance := 0,
       source := "osm", rank := none },
     by simp, by norm_num, Or.inr ⟨"quiet", by simp, by simp⟩, by decide⟩

/-! Helper lemmas about the ranking stage. -/

/-- The rank-assignment pass preserves the list length. -/
theorem applyRanks_length (top : List ℕ) :
    ∀ (k : ℕ) (l : List Accommodation), (applyRanks top k l).length = l.length
  | _, [] => rfl
  | k, _ :: as => by simp [applyRanks, applyRanks_length top (k + 1) as]

/-- Entrywise description of the rank-assignment pass. -/
theorem applyRanks_getD (top : List ℕ) :
    ∀ (l : List Accommodation) (k i : ℕ), i < l.length →
      (applyRanks top k l).getD i default = adjustRank top (k + i) (l.getD i default)
  | [], _, i, h => absurd h (by simp)
  | a :: as, k, 0, _ => by simp [applyRanks]
  | a :: as, k, i + 1, h => by
    have hi : i < as.length := by simpa using h
    have := applyRanks_getD top as (k + 1) i hi
    simpa [applyRanks, Nat.add_assoc, Nat.add_comm 1 i] using this

/-- Rank adjustment changes no field other than `rank`. -/
theorem adjustRank_frame (top : List ℕ) (i : ℕ) (a : Accommodation) :
    (adjustRank top i a).id = a.id ∧ (adjustRank top i a).name = a.name ∧
    (adjustRank top i a).location = a.location ∧
    (adjustRank top i a).type = a.type ∧ (adjustRank top i a).tags = a.tags ∧
    (adjustRank top i a).score = a.score ∧
    (adjustRank top i a).distance = a.distance ∧
    (adjustRank top i a).source = a.source := by
  cases h : top.findIdx? fun j => j = i <;> simp [adjustRank, h]

/-- The rank field after adjustment: set from the position in `top` when the
index occurs there, untouched otherwise. -/
theorem adjustRank_rank (top : List ℕ) (i : ℕ) (a : Accommodation) :
    (adjustRank top i a).rank =
      match top.findIdx? fun j => j = i with
      | some k => some (k + 1)
      | none => a.rank := by
  cases h : top.findIdx? fun j => j = i <;> simp [adjustRank, h]

/-- Unfolding of `rank_results` on a non-empty input. -/
theorem rank_results_eq (accs : List Accommodation) (req : SearchRequest)
    (h : accs ≠ []) :
    rank_results accs req =
      (applyRanks (topIndices accs req) 0 (scoredList accs req),
       (topIndices accs req).map fun i =>
         (applyRanks (topIndices accs req) 0 (scoredList accs req)).getD i default) := by
  match accs, h with
  | a :: rest, _ => rfl

/-- Length of the scored list. -/
theorem scoredList_length (accs : List Accommodation) (req : SearchRequest) :
    (scoredList accs req).length = accs.length := by
  simp [scoredList]

/-- Entrywise description of the scoring pass. -/
theorem scoredList_getD (accs : List Accommodation) (req : SearchRequest)
    (i : ℕ) (h : i < accs.length) :
    (scoredList accs req).getD i default =
      { accs.getD i default with score := scoreOf req (accs.getD i default) } := by
  have h2 : i < (scoredList accs req).length := by
    simpa [scoredList_length] using h
  rw [List.getD_eq_getElem _ _ h2, List.getD_eq_getElem _ _ h]
  simp [scoredList]

/-- The sorted index list is a permutation of the positions. -/
theorem sortedIndices_perm (accs : List Accommodation) (req : SearchRequest) :
    (sortedIndices accs req).Perm (List.range accs.length) :=
  List.perm_insertionSort _ _

/-- Membership in the sorted index list is exactly being a valid position. -/
theorem mem_sortedIndices (accs : List Accommodation) (req : SearchRequest)
    (i : ℕ) : i ∈ sortedIndices accs req ↔ i < accs.length := by
  rw [(sortedIndices_perm accs req).mem_iff, List.mem_range]

/-- The sorted index list has no duplicates. -/
theorem sortedIndices_nodup (accs : List Accommodation) (req : SearchRequest) :
    (sortedIndices accs req).Nodup :=
  (sortedIndices_perm accs req).symm.nodup (List.nodup_range _)

/-- The top index list has no duplicates. -/
theorem topIndices_nodup (accs : List Accommodation) (req : SearchRequest) :
    (topIndices accs req).Nodup :=
  (List.take_sublist _ _).nodup (sortedIndices_nodup accs req)

/-- Every top index is a valid position. -/
theorem topIndices_lt (accs : List Accommodation) (req : SearchRequest) :
    ∀ i ∈ topIndices accs req, i < accs.length := fun i hi =>
  (mem_sortedIndices accs req i).mp ((List.take_sublist _ _).mem hi)

/-- At most five top indices. -/
theorem topIndices_length_le (accs : List Accommodation) (req : SearchRequest) :
    (topIndices accs req).length ≤ 5 := by
  simp [topIndices, List.length_take_le]

/-- The score of any entry of the final list equals the score the scoring
pass computed for that position (rank assignment never touches scores; out
of range both sides fall back to the default entry). -/
theorem mutated_score (accs : List Accommodation) (req : SearchRequest)
    (i : ℕ) :
    ((applyRanks (topIndices accs req) 0 (scoredList accs req)).getD i
      default).score = scrFn accs req i := by
  by_cases h : i < (scoredList accs req).length
  · rw [applyRanks_getD _ _ 0 i h]
    simp only [Nat.zero_add, scrFn]
    exact (adjustRank_frame _ _ _).2.2.2.2.2.1
  · push_neg at h
    rw [List.getD_eq_default _ _ (by simpa [applyRanks_length] using h)]
    simp only [scrFn]
    rw [List.getD_eq_default _ _ h]

/-- The comparison Python's stable descending sort uses on positions:
position `i` may precede `j` when `j`'s score does not exceed `i`'s. -/
def idxGe (scr : ℕ → ℚ) (i j : ℕ) : Prop := scr j ≤ scr i

/-- The strict ordering realised by a stable descending sort of distinct
positions: strictly larger score first, ties broken by original position. -/
def idxBefore (scr : ℕ → ℚ) (i j : ℕ) : Prop :=
  scr j < scr i ∨ (scr i = scr j ∧ i < j)

/-- Inserting a position smaller than every member of a stably ordered list
keeps the list stably ordered. -/
theorem pairwise_orderedInsert_stable (scr : ℕ → ℚ) (i : ℕ) :
    ∀ xs : List ℕ, List.Pairwise (idxBefore scr) xs → (∀ j ∈ xs, i < j) →
      List.Pairwise (idxBefore scr)
        (List.orderedInsert (fun a b => scr b ≤ scr a) i xs)
  | [], _, _ => List.pairwise_singleton _ _
  | b :: xs, hp, hlt => by
    obtain ⟨hb, hxs⟩ := List.pairwise_cons.mp hp
    by_cases hib : scr b ≤ scr i
    · rw [List.orderedInsert, if_pos hib]
      refine List.pairwise_cons.mpr ⟨?_, hp⟩
      intro c hc
      rcases List.mem_cons.mp hc with rfl | hc
      · rcases lt_or_eq_of_le hib with hlt2 | heq
        · exact Or.inl hlt2
        · exact Or.inr ⟨heq.symm, hlt c (List.mem_cons_self _ _)⟩
      · have hbc := hb c hc
        have hic : i < c := hlt c (List.mem_cons_of_mem _ hc)
        rcases hbc with hlt2 | ⟨heq2, _⟩
        · exact Or.inl (lt_of_lt_of_le hlt2 hib)
        · rcases lt_or_eq_of_le (heq2 ▸ hib) with hlt3 | heq3
          · exact Or.inl hlt3
          · exact Or.inr ⟨heq3.symm, hic⟩
    · rw [List.orderedInsert, if_neg hib]
      refine List.pairwise_cons.mpr ⟨?_, ?_⟩
      · intro c hc
        rcases (List.mem_orderedInsert _).mp hc with rfl | hc
        · exact Or.inl (lt_of_not_le hib)
        · exact hb c hc
      · exact pairwise_orderedInsert_stable scr i xs hxs
          fun j hj => hlt j (List.mem_cons_of_mem _ hj)

/-- A stable descending insertion sort of a strictly increasing position
list is stably ordered: ties stay in position order. -/
theorem pairwise_insertionSort_stable (scr : ℕ → ℚ) :
    ∀ l : List ℕ, List.Pairwise (· < ·) l →
      List.Pairwise (idxBefore scr)
        (List.insertionSort (fun a b => scr b ≤ scr a) l)
  | [], _ => List.Pairwise.nil
  | a :: l, hp => by
    obtain ⟨ha, hl⟩ := List.pairwise_cons.mp hp
    rw [List.insertionSort]
    refine pairwise_orderedInsert_stable scr a _
      (pairwise_insertionSort_stable scr l hl) ?_
    intro j hj
    exact ha j ((List.perm_insertionSort _ l).mem_iff.mp hj)

/-- C5 stability core: the sorted index list is ordered by strictly larger
score first with ties in original position order. -/
theorem sortedIndices_stable (accs : List Accommodation) (req : SearchRequest) :
    List.Pairwise (idxBefore (scrFn accs req)) (sortedIndices accs req) :=
  pairwise_insertionSort_stable (scrFn accs req) (List.range accs.length)
    (List.pairwise_lt_range _)

/-- The sorted index list is sorted by non-increasing score. -/
theorem sortedIndices_sorted (accs : List Accommodation) (req : SearchRequest) :
    List.Pairwise (idxGe (scrFn accs req)) (sortedIndices accs req) := by
  refine (sortedIndices_stable accs req).imp ?_
  rintro i j (h | ⟨h, _⟩)
  · exact le_of_lt h
  · exact le_of_eq h.symm

/-- Position of an entry inside a duplicate-free index list, as computed by
`findIdx?`. -/
theorem findIdx_nodup_get (l : List ℕ) (hnd : l.Nodup) (k : ℕ)
    (hk : k < l.length) :
    l.findIdx? (fun j => j = l.get ⟨k, hk⟩) = some k := by
  rw [List.findIdx?_eq_some_iff_getElem]
  refine ⟨hk, by simp, ?_⟩
  intro j hj
  have hne : l.get ⟨j, Nat.lt_trans hj hk⟩ ≠ l.get ⟨k, hk⟩ := by
    intro he
    exact Nat.ne_of_lt hj
      (congrArg Fin.val ((List.Nodup.get_inj_iff hnd).mp he))
  simpa using hne

/-- Invariant of the normalizer loop: emitted names are pairwise distinct
and none of them was in the `seen` set on entry. -/
theorem normalizeLoop_nodup :
    ∀ (es : List OSMElement) (seen : List String),
      ((normalizeLoop es seen).map (·.name)).Nodup ∧
      ∀ a ∈ normalizeLoop es seen, a.name ∉ seen
  | [], seen => by simp [normalizeLoop]
  | e :: rest, seen => by
    match htags : e.tags with
    | none =>
      simpa [normalizeLoop, htags] using normalizeLoop_nodup rest seen
    | some t =>
      by_cases hseen : osmName t ∈ seen
      · simpa [normalizeLoop, htags, hseen] using normalizeLoop_nodup rest seen
      · match hla : e.lat, hlo : e.lon with
        | none, none =>
          simpa [normalizeLoop, htags, hseen, hla, hlo] using
            normalizeLoop_nodup rest seen
        | none, some lo =>
          simpa [normalizeLoop, htags, hseen, hla, hlo] using
            normalizeLoop_nodup rest seen
        | some la, none =>
          simpa [normalizeLoop, htags, hseen, hla, hlo] using
            normalizeLoop_nodup rest seen
        | some la, some lo =>
          have ih := normalizeLoop_nodup rest (osmName t :: seen)
          have heq : normalizeLoop (e :: rest) seen =
              toAccommodation e t la lo ::
                normalizeLoop rest (osmName t :: seen) := by
            simp [normalizeLoop, htags, hseen, hla, hlo]
          rw [heq]
          constructor
          · simp only [List.map_cons, List.nodup_cons]
            refine ⟨?_, ih.1⟩
            intro hmem
            obtain ⟨a, ha, hname⟩ := List.mem_map.mp hmem
            have hnotin := ih.2 a ha
            apply hnotin
            rw [show a.name = osmName t from hname]
            exact List.mem_cons_self _ _
          · intro a ha
            rcases List.mem_cons.mp ha with rfl | ha
            · simpa [toAccommodation] using hseen
            · intro hmem
              exact ih.2 a ha (List.mem_cons_of_mem _ hmem)

/-- C8: names emitted by `normalize_osm_data` are pairwise distinct: a
record whose name was already emitted is dropped (first-seen wins), records
without a tag payload are dropped, records without a directly attached
coordinate pair are dropped, and a record with tags, coordinates and a
fresh name is emitted followed by the rest of the pass with its name marked
as seen. -/
theorem normalize_osm_data_name_nodup :
    (∀ es : List OSMElement,
      ((normalize_osm_data es).map (·.name)).Nodup) ∧
    (∀ (e : OSMElement) (es : List OSMElement), e.tags = none →
      normalize_osm_data (e :: es) = normalize_osm_data es) ∧
    (∀ (e : OSMElement) (es : List OSMElement),
      e.lat = none ∨ e.lon = none →
      normalize_osm_data (e :: es) = normalize_osm_data es) ∧
    (∀ (e : OSMElement) (es : List OSMElement) (t : OSMTags) (la lo : ℚ),
      e.tags = some t → e.lat = some la → e.lon = some lo →
      normalize_osm_data (e :: es) =
        toAccommodation e t la lo :: normalizeLoop es [osmName t]) := by
  refine ⟨fun es => (normalizeLoop_nodup es []).1, ?_, ?_, ?_⟩
  · intro e es htags
    simp [normalize_osm_data, normalizeLoop, htags]
  · intro e es hcoord
    match htags : e.tags with
    | none => simp [normalize_osm_data, normalizeLoop, htags]
    | some t =>
      rcases hcoord with h | h
      · match hlo : e.lon with
        | none => simp [normalize_osm_data, normalizeLoop, htags, h, hlo]
        | some lo => simp [normalize_osm_data, normalizeLoop, htags, h, hlo]
      · match hla : e.lat with
        | none => simp [normalize_osm_data, normalizeLoop, htags, h, hla]
        | some la => simp [normalize_osm_data, normalizeLoop, htags, h, hla]
  · intro e es t la lo htags hla hlo
    simp [normalize_osm_data, normalizeLoop, htags, hla, hlo]

/-- Concrete raw-element list for the C8 witness: a tagless record, a
coordinate-free record, two records sharing the name "A" and one record
named "B". -/
def demoElements : List OSMElement :=
  [{ id := some 1, type := "node", lat := some 1, lon := some 2, tags := none },
   { id := some 2, type := "way", lat := none, lon := none,
     tags := some { name := some "A", addrStreet := none,
                    tourism := some "hotel", amenity := none, building := none } },
   { id := some 3, type := "node", lat := some 3, lon := some 4,
     tags := some { name := some "A", addrStreet := none,
                    tourism := some "hotel", amenity := none, building := none } },
   { id := some 4, type := "node", lat := some 5, lon := some 6,
     tags := some { name := some "A", addrStreet := none,
                    tourism := some "guest_house", amenity := none,
                    building := none } },
   { id := some 5, type := "node", lat := some 7, lon := some 8,
     tags := some { name := some "B", addrStreet := none,
                    tourism := some "hostel", amenity := some "bar",
                    building := some "yes" } }]

/-- Witness for C8: the invariant and the drop equations evaluated on the
concrete element list. -/
theorem normalize_osm_data_name_nodup_witness :
    ((normalize_osm_data demoElements).map (·.name)).Nodup ∧
    normalize_osm_data
        ({ id := some 9, type := "node", lat := some 1, lon := some 2,
           tags := none } :: demoElements) =
      normalize_osm_data demoElements ∧
    normalize_osm_data
        ({ id := some 9, type := "way", lat := none, lon := some 2,
           tags := some { name := some "C", addrStreet := none,
                          tourism := none, amenity := none,
                          building := none } } :: demoElements) =
      normalize_osm_data demoElements :=
  ⟨normalize_osm_data_name_nodup.1 demoElements,
   normalize_osm_data_name_nodup.2.1 _ demoElements rfl,
   normalize_osm_data_name_nodup.2.2.1 _ demoElements (Or.inl rfl)⟩

/-- The rank stored on the entry at the k-th top index is `k + 1`. -/
theorem topEntry_rank (accs : List Accommodation) (req : SearchRequest)
    (k : ℕ) (hk : k < (topIndices accs req).length) :
    ((applyRanks (topIndices accs req) 0 (scoredList accs req)).getD
      ((topIndices accs req).get ⟨k, hk⟩) default).rank = some (k + 1) := by
  have hi : (topIndices accs req).get ⟨k, hk⟩ < accs.length :=
    topIndices_lt accs req _ (List.get_mem _ _ hk)
  have hi2 : (topIndices accs req).get ⟨k, hk⟩ <
      (scoredList accs req).length := by
    simpa [scoredList_length] using hi
  rw [applyRanks_getD _ _ 0 _ hi2, adjustRank_rank]
  simp only [Nat.zero_add]
  rw [findIdx_nodup_get _ (topIndices_nodup accs req) k hk]

/-- The score stored at position `i` after ranking is the rounded composite
score of the original entry at position `i`. -/
theorem mutated_getD_score (accs : List Accommodation) (req : SearchRequest)
    (i : ℕ) (hi : i < accs.length) :
    ((applyRanks (topIndices accs req) 0 (scoredList accs req)).getD i
      default).score = scoreOf req (accs.getD i default) := by
  have h2 : i < (scoredList accs req).length := by
    simpa [scoredList_length] using hi
  rw [applyRanks_getD _ _ 0 i h2]
  simp only [Nat.zero_add]
  rw [(adjustRank_frame _ _ _).2.2.2.2.2.1, scoredList_getD accs req i hi]

/-- C5: ranking of the empty list yields the empty list (not a failure);
the returned list never exceeds five entries; its scores are
non-increasing; its `rank` fields are exactly 1..k in order; the underlying
index order is the stable descending one (strictly larger score first,
ties broken by the Normalizer emission position) over a permutation of all
positions; and the returned list reads off the first five stably sorted
positions. -/
theorem rank_results_top5 :
    (∀ req, rank_results [] req = ([], [])) ∧
    (∀ (accs : List Accommodation) (req : SearchRequest),
      ((rank_results accs req).2).length ≤ 5) ∧
    (∀ (accs : List Accommodation) (req : SearchRequest),
      List.Pairwise (fun a b => b.score ≤ a.score) (rank_results accs req).2) ∧
    (∀ (accs : List Accommodation) (req : SearchRequest),
      ((rank_results accs req).2).map (·.rank) =
        (List.range ((rank_results accs req).2).length).map fun k =>
          some (k + 1)) ∧
    (∀ (accs : List Accommodation) (req : SearchRequest),
      List.Pairwise (idxBefore (scrFn accs req)) (sortedIndices accs req)) ∧
    (∀ (accs : List Accommodation) (req : SearchRequest),
      (sortedIndices accs req).Perm (List.range accs.length)) ∧
    (∀ (accs : List Accommodation) (req : SearchRequest),
      (rank_results accs req).2 = (topIndices accs req).map fun i =>
        (applyRanks (topIndices accs req) 0 (scoredList accs req)).getD i
          default) := by
  have hsnd : ∀ (accs : List Accommodation) (req : SearchRequest),
      (rank_results accs req).2 = (topIndices accs req).map fun i =>
        (applyRanks (topIndices accs req) 0 (scoredList accs req)).getD i
          default := by
    intro accs req
    match accs with
    | [] => simp [rank_results, topIndices, sortedIndices]
    | a :: rest => rw [rank_results_eq _ _ (by simp)]
  refine ⟨fun req => rfl, ?_, ?_, ?_, sortedIndices_stable, sortedIndices_perm,
    hsnd⟩
  · intro accs req
    rw [hsnd]
    simpa using topIndices_length_le accs req
  · intro accs req
    rw [hsnd]
    refine List.Pairwise.map _ ?_
      (List.Pairwise.sublist (List.take_sublist _ _)
        (sortedIndices_sorted accs req))
    intro i j hij
    rw [mutated_score, mutated_score]
    exact hij
  · intro accs req
    rw [hsnd]
    apply List.ext_getElem
    · simp
    · intro k h1 h2
      have hk : k < (topIndices accs req).length := by simpa using h1
      have := topEntry_rank accs req k hk
      simp only [List.getElem_map, List.getElem_range]
      simpa [List.get_eq_getElem] using this

/-- Concrete entity for the 23.00 scenario: distance 0, exact type match,
named, both requested tags present. -/
def acc23 : Accommodation :=
  { id := 1, name := "Sea Breeze", location := (10, 106), type := "hotel",
    tags := ["hotel", "quiet", "beachfront"], score := 0, distance := 0,
    source := "osm", rank := none }

/-- Concrete request for the 23.00 scenario: type `hotel`, two requested
tags. -/
def req23 : SearchRequest :=
  { location_name := "Vũng Tàu", lat := 10, lon := 106, budget := "low",
    type := "hotel", tags := ["quiet", "beachfront"], radius := 5000,
    max_results := 10 }

/-- C2: ranking stores on every input entry the score
`round(10 + max(0, 5 - d) + 2·|tags ∩ requested| + type bonus + name
bonus, 2)`; an entity at distance 0 with exact type match, a non-sentinel
name and 2 of 2 requested tags matched scores 23.00. -/
theorem rank_results_score_spec :
    (∀ (accs : List Accommodation) (req : SearchRequest) (i : ℕ),
      i < accs.length →
      (((rank_results accs req).1).getD i default).score =
        round2 (10 + max 0 (5 - (accs.getD i default).distance) +
          2 * (((accs.getD i default).tags.dedup.filter fun t =>
              req.tags.contains t).length : ℚ) +
          (if (accs.getD i default).type = req.type then 3 else 0) +
          (if (accs.getD i default).name ≠ "Unnamed" then 1 else 0))) ∧
    ((rank_results [acc23] req23).2.getD 0 default).score = 23 := by
  constructor
  · intro accs req i hi
    have hne : accs ≠ [] := by
      intro h
      rw [h] at hi
      exact absurd hi (by simp)
    rw [rank_results_eq _ _ hne]
    rw [mutated_getD_score accs req i hi]
    simp only [scoreOf]
    congr 1
    simp only [computeScore]
    ring
  · have htop : topIndices [acc23] req23 = [0] := rfl
    have hms := mutated_getD_score [acc23] req23 0 (by norm_num)
    rw [rank_results_eq _ _ (by simp), htop]
    simp only [List.map_cons, List.map_nil, List.getD_cons_zero]
    rw [htop] at hms
    rw [hms]
    show scoreOf req23 acc23 = 23
    have hcount : (acc23.tags.dedup.filter fun t =>
        req23.tags.contains t).length = 2 := by decide
    simp only [scoreOf, computeScore, hcount]
    norm_num [acc23, req23, round2, round_eq]
    rw [if_neg (by decide : ¬("Sea Breeze" : String) = "Unnamed")]
    norm_num

/-- Witness for C2: the formula instantiated at the concrete 23.00
scenario. -/
theorem rank_results_score_spec_witness :
    (((rank_results [acc23] req23).1).getD 0 default).score =
      round2 (10 + max 0 (5 - (([acc23].getD 0 default)).distance) +
        2 * ((([acc23].getD 0 default)).tags.dedup.filter fun t =>
            req23.tags.contains t).length +
        (if (([acc23].getD 0 default)).type = req23.type then 3 else 0) +
        (if (([acc23].getD 0 default)).name ≠ "Unnamed" then 1 else 0)) :=
  rank_results_score_spec.1 [acc23] req23 0 (by decide)

/-- C9: `max_results` is dead configuration — two requests differing only
in `max_results` produce identical filtering and ranking outputs. -/
theorem max_results_noninterference (hdist : ℚ → ℚ → ℚ → ℚ → ℚ)
    (accs : List Accommodation) (req : SearchRequest) (m : ℕ) :
    filter_results hdist accs { req with max_results := m } =
      filter_results hdist accs req ∧
    rank_results accs { req with max_results := m } =
      rank_results accs req := by
  obtain ⟨l, la, lo, b, ty, tg, r, mx⟩ := req
  constructor
  · induction accs with
    | nil => rfl
    | cons a rest ih => simp only [filter_results, ih]
  · rfl

/-- C10: on a non-empty input, the final state of the input list (first
component) keeps its length; every entry — including the ones beyond the
top five — gets its `score` field set to the rounded composite score while
every other field except `rank` is unchanged; an entry whose `rank` field
changed is one of the returned entities; the returned list has at most
five entries and each of them is an entry of the final input list (the
value-level rendering of the Python aliasing). -/
theorem rank_results_frame (accs : List Accommodation) (req : SearchRequest)
    (hne : accs ≠ []) :
    ((rank_results accs req).1).length = accs.length ∧
    (∀ i, i < accs.length →
      ((rank_results accs req).1.getD i default).score =
        scoreOf req (accs.getD i default) ∧
      ((rank_results accs req).1.getD i default).id =
        (accs.getD i default).id ∧
      ((rank_results accs req).1.getD i default).name =
        (accs.getD i default).name ∧
      ((rank_results accs req).1.getD i default).location =
        (accs.getD i default).location ∧
      ((rank_results accs req).1.getD i default).type =
        (accs.getD i default).type ∧
      ((rank_results accs req).1.getD i default).tags =
        (accs.getD i default).tags ∧
      ((rank_results accs req).1.getD i default).distance =
        (accs.getD i default).distance ∧
      ((rank_results accs req).1.getD i default).source =
        (accs.getD i default).source ∧
      (((rank_results accs req).1.getD i default).rank ≠
          (accs.getD i default).rank →
        (rank_results accs req).1.getD i default ∈ (rank_results accs req).2)) ∧
    ((rank_results accs req).2).length ≤ 5 ∧
    ∀ b ∈ (rank_results accs req).2, b ∈ (rank_results accs req).1 := by
  have hM : (rank_results accs req).1 =
      applyRanks (topIndices accs req) 0 (scoredList accs req) := by
    rw [rank_results_eq accs req hne]
  have hret : (rank_results accs req).2 =
      (topIndices accs req).map fun i =>
        (applyRanks (topIndices accs req) 0 (scoredList accs req)).getD i
          default := by
    rw [rank_results_eq accs req hne]
  rw [hM, hret]
  refine ⟨?_, ?_, ?_, ?_⟩
  · rw [applyRanks_length, scoredList_length]
  · intro i hi
    have hi2 : i < (scoredList accs req).length := by
      simpa [scoredList_length] using hi
    have hentry : (applyRanks (topIndices accs req) 0
        (scoredList accs req)).getD i default =
          adjustRank (topIndices accs req) i
            { accs.getD i default with
              score := scoreOf req (accs.getD i default) } := by
      rw [applyRanks_getD _ _ 0 i hi2]
      simp only [Nat.zero_add]
      rw [scoredList_getD accs req i hi]
    rw [hentry]
    obtain ⟨f1, f2, f3, f4, f5, f6, f7, f8⟩ :=
      adjustRank_frame (topIndices accs req) i
        { accs.getD i default with
          score := scoreOf req (accs.getD i default) }
    refine ⟨by rw [f6], by rw [f1], by rw [f2], by rw [f3], by rw [f4],
      by rw [f5], by rw [f7], by rw [f8], ?_⟩
    · intro hrank
      rcases hfi : (topIndices accs req).findIdx? (fun j => j = i)
        with _ | k
      · exfalso
        apply hrank
        rw [adjustRank_rank, hfi]
      · have hmem : i ∈ topIndices accs req := by
          obtain ⟨hk, hp, _⟩ := List.findIdx?_eq_some_iff_getElem.mp hfi
          have hgk : (topIndices accs req)[k] = i := by simpa using hp
          rw [← hgk]
          exact List.getElem_mem hk
        exact List.mem_map.mpr ⟨i, hmem, hentry⟩
  · rw [List.length_map]
    exact topIndices_length_le accs req
  · intro b hb
    obtain ⟨j, hj, rfl⟩ := List.mem_map.mp hb
    have hjlt : j < accs.length := topIndices_lt accs req j hj
    have hjM : j < (applyRanks (topIndices accs req) 0
        (scoredList accs req)).length := by
      rw [applyRanks_length, scoredList_length]
      exact hjlt
    rw [List.getD_eq_getElem _ _ hjM]
    exact List.getElem_mem hjM

/-- Concrete six-entity input for the C10 witness, so that one entity lies
beyond the top-five cutoff. -/
def demoAccs : List Accommodation :=
  [{ id := 1, name := "A", location := (0, 0), type := "hotel",
     tags := ["hotel"], score := 0, distance := 0, source := "osm",
     rank := none },
   { id := 2, name := "B", location := (0, 0), type := "hostel",
     tags := ["hostel"], score := 0, distance := 1, source := "osm",
     rank := none },
   { id := 3, name := "C", location := (0, 0), type := "hotel",
     tags := ["hotel"], score := 0, distance := 2, source := "osm",
     rank := none },
   { id := 4, name := "D", location := (0, 0), type := "hotel",
     tags := ["hotel"], score := 0, distance := 3, source := "osm",
     rank := none },
   { id := 5, name := "E", location := (0, 0), type := "hotel",
     tags := ["hotel"], score := 0, distance := 4, source := "osm",
     rank := none },
   { id := 6, name := "F", location := (0, 0), type := "hotel",
     tags := ["hotel"], score := 0, distance := 6, source := "osm",
     rank := none }]

/-- Concrete request for the C10 witness. -/
def demoReq : SearchRequest :=
  { location_name := "X", lat := 0, lon := 0, budget := "medium",
    type := "hotel", tags := ["quiet"], radius := 5000, max_results := 10 }

/-- Witness for C10: length preservation, the score written on the entity
beyond the top five, and the cap, all on the concrete six-entity input. -/
theorem rank_results_frame_witness :
    ((rank_results demoAccs demoReq).1).length = demoAccs.length ∧
    ((rank_results demoAccs demoReq).1.getD 5 default).score =
      scoreOf demoReq (demoAccs.getD 5 default) ∧
    ((rank_results demoAccs demoReq).2).length ≤ 5 :=
  ⟨(rank_results_frame demoAccs demoReq (by simp [demoAccs])).1,
   ((rank_results_frame demoAccs demoReq (by simp [demoAccs])).2.1 5
     (by simp [demoAccs])).1,
   (rank_results_frame demoAccs demoReq (by simp [demoAccs])).2.2.1⟩

end BeachFinder
